import Mathlib

/-!
Verification of the WeCom proxy's webhook-verification and challenge-decryption
core (`verifyWecomSignature`, `decryptWecomEchoStr`, and the
`GET /wecom/kf-callback` route of `server.js`), shallowly embedded in Lean.

Modelling conventions:
* A JavaScript string is its sequence of UTF-16 code units, `List Nat`.
* Node's `crypto.createHash("sha1").update(str)` hashes the UTF-8 encoding of
  the string; SHA-1 is implemented here in full over byte lists (`List Nat`,
  each entry < 256).
* JavaScript's default `Array.prototype.sort()` on strings orders them by
  their UTF-16 code-unit sequences; this is `jsLe` below.
-/

namespace WecomProxy

/-- Strict lexicographic order on lists of naturals (used both for JS
string comparison on code units and for byte-wise comparison on UTF-8
bytes). A strict prefix is smaller. -/
def lexLt : List Nat → List Nat → Bool
  | _, [] => false
  | [], _ :: _ => true
  | a :: as, b :: bs => if a < b then true else if b < a then false else lexLt as bs

/-- JavaScript string ordering (non-strict): `a` sorts no later than `b`
under the default `sort()` comparator, i.e. `b` is not code-unit-wise
smaller than `a`. -/
def jsLe (a b : List Nat) : Prop := lexLt b a = false

instance : DecidableRel jsLe := fun a b => instDecidableEqBool (lexLt b a) false

/-! ### SHA-1 over byte lists (the digest computed by Node's `crypto` for `sha1Hex`) -/

/-- Truncation to 32 bits. -/
def w32 (x : Nat) : Nat := x % 4294967296

/-- 32-bit left rotation (input below `2^32`). -/
def rotl (n x : Nat) : Nat := ((x <<< n) ||| (x >>> (32 - n))) % 4294967296

/-- Big-endian 32-bit words from a byte list (groups of four). -/
def beWords : List Nat → List Nat
  | b0 :: b1 :: b2 :: b3 :: rest => (((b0 * 256 + b1) * 256 + b2) * 256 + b3) :: beWords rest
  | _ => []

/-- Big-endian byte rendering of a 32-bit word. -/
def be32 (n : Nat) : List Nat := [n / 16777216 % 256, n / 65536 % 256, n / 256 % 256, n % 256]

/-- Big-endian byte rendering of a 64-bit quantity. -/
def be64 (n : Nat) : List Nat :=
  [n / 72057594037927936 % 256, n / 281474976710656 % 256, n / 1099511627776 % 256,
   n / 4294967296 % 256, n / 16777216 % 256, n / 65536 % 256, n / 256 % 256, n % 256]

/-- SHA-1 padding: a `0x80` byte, zeros to 56 mod 64, then the bit length. -/
def sha1Pad (msg : List Nat) : List Nat :=
  msg ++ 128 :: (List.replicate ((119 - msg.length % 64) % 64) 0 ++ be64 (msg.length * 8))

/-- Fuel-driven worker for `chunks` (structural recursion, so that concrete
computations reduce in the kernel). -/
def chunksF (k : Nat) : Nat → List Nat → List (List Nat)
  | 0, _ => []
  | _ + 1, [] => []
  | fuel + 1, x :: xs => (x :: xs).take (k + 1) :: chunksF k fuel ((x :: xs).drop (k + 1))

/-- Split a byte list into chunks of `k + 1` bytes (the last chunk may be
shorter). -/
def chunks (k : Nat) (l : List Nat) : List (List Nat) := chunksF k l.length l

def sha1F (t b c d : Nat) : Nat :=
  if t < 20 then (b &&& c) ||| ((b ^^^ 4294967295) &&& d)
  else if t < 40 then b ^^^ c ^^^ d
  else if t < 60 then (b &&& c) ||| (b &&& d) ||| (c &&& d)
  else b ^^^ c ^^^ d

/-- SHA-1 round constants. -/
def sha1K (t : Nat) : Nat :=
  if t < 20 then 1518500249
  else if t < 40 then 1859775393
  else if t < 60 then 2400959708
  else 3395469782

/-- Extend 16 message words to the 80-word schedule. -/
def sha1Expand (ws : List Nat) : List Nat :=
  (List.range 64).foldl
    (fun a i =>
      a ++ [rotl 1 ((a.getD (i + 13) 0) ^^^ (a.getD (i + 8) 0) ^^^ (a.getD (i + 2) 0) ^^^ (a.getD i 0))])
    ws

/-- Compress one 64-byte block into the running state (five 32-bit words). -/
def sha1Block (hs : List Nat) (block : List Nat) : List Nat :=
  let ws := sha1Expand (beWords block)
  let fin := (List.range 80).foldl
    (fun st t =>
      let tmp := w32 (rotl 5 st.1 + sha1F t st.2.1 st.2.2.1 st.2.2.2.1 + st.2.2.2.2 +
        sha1K t + ws.getD t 0)
      (tmp, st.1, rotl 30 st.2.1, st.2.2.1, st.2.2.2.1))
    (hs.getD 0 0, hs.getD 1 0, hs.getD 2 0, hs.getD 3 0, hs.getD 4 0)
  [w32 (hs.getD 0 0 + fin.1), w32 (hs.getD 1 0 + fin.2.1), w32 (hs.getD 2 0 + fin.2.2.1),
   w32 (hs.getD 3 0 + fin.2.2.2.1), w32 (hs.getD 4 0 + fin.2.2.2.2)]

/-- SHA-1 digest (20 bytes) of a byte list. -/
def sha1Bytes (msg : List Nat) : List Nat :=
  List.flatten ((((chunks 63 (sha1Pad msg)).foldl sha1Block
    [1732584193, 4023233417, 2562383102, 271733878, 3285377520]).map be32))

/-- Lowercase hexadecimal digit (as an ASCII code unit). -/
def hexDigit (n : Nat) : Nat := if n < 10 then 48 + n else 87 + n

/-- Lowercase hexadecimal rendering of a byte list, as code units. -/
def hexUnits (bytes : List Nat) : List Nat :=
  List.flatten (bytes.map (fun b => [hexDigit (b / 16), hexDigit (b % 16)]))

/-! ### UTF-8 encoding of JS strings (Node's `utf8` conversion) -/

/-- UTF-8 bytes of one code point. -/
def utf8Cp (c : Nat) : List Nat :=
  if c < 128 then [c]
  else if c < 2048 then [192 + c / 64, 128 + c % 64]
  else if c < 65536 then [224 + c / 4096, 128 + c / 64 % 64, 128 + c % 64]
  else [240 + c / 262144, 128 + c / 4096 % 64, 128 + c / 64 % 64, 128 + c % 64]

/-- UTF-8 bytes of a UTF-16 code-unit sequence, as Node converts a JS string
to bytes: surrogate pairs combine into one code point, lone surrogates
become U+FFFD. -/
def utf8OfUnits : List Nat → List Nat
  | [] => []
  | [u] => if 55296 ≤ u ∧ u ≤ 57343 then utf8Cp 65533 else utf8Cp u
  | u :: u2 :: rest2 =>
    if 55296 ≤ u ∧ u ≤ 56319 then
      if 56320 ≤ u2 ∧ u2 ≤ 57343 then
        utf8Cp (65536 + (u - 55296) * 1024 + (u2 - 56320)) ++ utf8OfUnits rest2
      else utf8Cp 65533 ++ utf8OfUnits (u2 :: rest2)
    else if 56320 ≤ u ∧ u ≤ 57343 then utf8Cp 65533 ++ utf8OfUnits (u2 :: rest2)
    else utf8Cp u ++ utf8OfUnits (u2 :: rest2)

/-- Code units of an ASCII Lean string literal (used for concrete inputs). -/
def ofStr (s : String) : List Nat := s.data.map Char.toNat

/-! ### The signature verifier (`sha1Hex`, `verifyWecomSignature` in `server.js`) -/

/-- `sha1Hex(str)`: lowercase-hex SHA-1 of the UTF-8 encoding of a JS string,
as `crypto.createHash("sha1").update(str).digest("hex")` computes it. -/
def sha1Hex (s : List Nat) : List Nat := hexUnits (sha1Bytes (utf8OfUnits s))

/-- `verifyWecomSignature({token, timestamp, nonce, signature, data})`:
sort the four strings with JavaScript's default `sort()` (code-unit order),
join with no separator, SHA-1 in lowercase hex, compare to `signature`. -/
def verifyWecomSignature (token timestamp nonce signature data : List Nat) : Bool :=
  sha1Hex (List.flatten (List.insertionSort jsLe [token, timestamp, nonce, data])) == signature

/-- Byte-wise string ordering as the specification words it: compare the
UTF-8 byte sequences lexicographically. -/
def byteLe (a b : List Nat) : Prop := lexLt (utf8OfUnits b) (utf8OfUnits a) = false

instance : DecidableRel byteLe := fun a b =>
  instDecidableEqBool (lexLt (utf8OfUnits b) (utf8OfUnits a)) false

/-- The verifier as the specification describes it (for claim C1): identical
to `verifyWecomSignature` except that the four strings are sorted by
byte-wise (UTF-8) lexicographic ordering. -/
def verifyWecomSignatureSpec (token timestamp nonce signature data : List Nat) : Bool :=
  sha1Hex (List.flatten (List.insertionSort byteLe [token, timestamp, nonce, data])) == signature

/-! ### Base64 (Node's lenient `Buffer.from(str, "base64")`) -/

/-- Sextet value of one base64 alphabet character (as a code unit). `none`
for everything else — Node's decoder skips invalid characters, and `=` only
terminates padding. -/
def b64Val (c : Nat) : Option Nat :=
  if 65 ≤ c ∧ c ≤ 90 then some (c - 65)
  else if 97 ≤ c ∧ c ≤ 122 then some (c - 71)
  else if 48 ≤ c ∧ c ≤ 57 then some (c + 4)
  else if c = 43 then some 62
  else if c = 47 then some 63
  else none

/-- Pack a big-endian sextet stream into bytes; bits that do not fill a
byte are dropped (Node's behaviour for unpadded input). -/
def packSextets : List Nat → List Nat
  | a :: b :: c :: d :: rest =>
      (a * 4 + b / 16) :: ((b % 16) * 16 + c / 4) :: ((c % 4) * 64 + d) :: packSextets rest
  | [a, b] => [a * 4 + b / 16]
  | [a, b, c] => [a * 4 + b / 16, (b % 16) * 16 + c / 4]
  | _ => []

/-- Node's base64 decoding of a JS string into bytes. -/
def b64Decode (s : List Nat) : List Nat := packSextets (s.filterMap b64Val)

/-! ### AES-256-CBC with PKCS#7 (Node `createDecipheriv("aes-256-cbc", key, iv)`).
The AES-256 block permutation itself is Node's OpenSSL code, external to this
repository; it is abstracted as an explicit block-cipher argument. -/

/-- Bytewise XOR of two blocks (truncates to the shorter, as `zipWith`). -/
def xorBytes (a b : List Nat) : List Nat := List.zipWith (fun x y => x ^^^ y) a b

/-- CBC decryption of 16-byte blocks: plaintext block = block-decryption of
the ciphertext block XORed with the previous ciphertext block (initially
the IV). -/
def cbcDecBlocks (dec : List Nat → List Nat) : List Nat → List (List Nat) → List (List Nat)
  | _, [] => []
  | prev, c :: cs => xorBytes (dec c) prev :: cbcDecBlocks dec c cs

/-- CBC encryption of 16-byte blocks (the sending platform's side, used to
state the round-trip law). -/
def cbcEncBlocks (enc : List Nat → List Nat) : List Nat → List (List Nat) → List (List Nat)
  | _, [] => []
  | prev, p :: ps => enc (xorBytes p prev) :: cbcEncBlocks enc (enc (xorBytes p prev)) ps

/-- PKCS#7 unpadding as OpenSSL checks it in `decipher.final()`: the last
byte `p` must lie in `[1,16]` and the last `p` bytes must all equal `p`. -/
def pkcs7Unpad (l : List Nat) : Option (List Nat) :=
  match l.getLast? with
  | none => none
  | some p =>
    if 1 ≤ p ∧ p ≤ 16 ∧ p ≤ l.length ∧ l.drop (l.length - p) = List.replicate p p then
      some (l.take (l.length - p))
    else none

/-- PKCS#7 padding to a multiple of 16 bytes. -/
def pkcs7Pad (l : List Nat) : List Nat :=
  l ++ List.replicate (16 - l.length % 16) (16 - l.length % 16)

/-- AES-CBC decryption with PKCS#7 removal, the block cipher abstracted.
`none` models the "decryption failed" exception: ciphertext empty or not a
multiple of the block size, or malformed padding. -/
def aesCbcDecrypt (dec : List Nat → List Nat) (iv ct : List Nat) : Option (List Nat) :=
  if ct.length = 0 ∨ ct.length % 16 ≠ 0 then none
  else pkcs7Unpad (List.flatten (cbcDecBlocks dec iv (chunks 15 ct)))

/-- AES-CBC encryption with PKCS#7 padding (the platform's encryption,
used only on the hypothesis side of the round-trip law). -/
def aesCbcEncrypt (enc : List Nat → List Nat) (iv pt : List Nat) : List Nat :=
  List.flatten (cbcEncBlocks enc iv (chunks 15 (pkcs7Pad pt)))

/-! ### UTF-8 decoding of bytes to a JS string (Node `buf.toString("utf8")`) -/

/-- Units for a code point: one unit below U+10000, else a surrogate pair. -/
def surrogateUnits (cp : Nat) : List Nat :=
  if cp < 65536 then [cp]
  else [55296 + (cp - 65536) / 1024, 56320 + (cp - 65536) % 1024]

/-- Lower bound for a valid second byte after lead `b0` (WHATWG table). -/
def contLo (b0 : Nat) : Nat := if b0 = 224 then 160 else if b0 = 240 then 144 else 128

/-- Upper bound for a valid second byte after lead `b0` (WHATWG table). -/
def contHi (b0 : Nat) : Nat := if b0 = 237 then 159 else if b0 = 244 then 143 else 191

/-- Code point of a two-byte sequence. -/
def cp2 (b0 b1 : Nat) : Nat := (b0 - 192) * 64 + (b1 - 128)

/-- Code point of a three-byte sequence. -/
def cp3 (b0 b1 b2 : Nat) : Nat := (b0 - 224) * 4096 + (b1 - 128) * 64 + (b2 - 128)

/-- Code point of a four-byte sequence. -/
def cp4 (b0 b1 b2 b3 : Nat) : Nat :=
  (b0 - 240) * 262144 + (b1 - 128) * 4096 + (b2 - 128) * 64 + (b3 - 128)

/-- WHATWG/Node UTF-8 decoding of bytes into UTF-16 code units: malformed
input yields U+FFFD per maximal subpart, decoding resumes at the offending
byte. -/
def utf8Decode : List Nat → List Nat
  | [] => []
  | [b0] => if b0 < 128 then [b0] else [65533]
  | [b0, b1] =>
    if b0 < 128 then b0 :: utf8Decode [b1]
    else if 194 ≤ b0 ∧ b0 ≤ 223 then
      if 128 ≤ b1 ∧ b1 ≤ 191 then [cp2 b0 b1] else 65533 :: utf8Decode [b1]
    else if 224 ≤ b0 ∧ b0 ≤ 244 then
      if contLo b0 ≤ b1 ∧ b1 ≤ contHi b0 then [65533] else 65533 :: utf8Decode [b1]
    else 65533 :: utf8Decode [b1]
  | [b0, b1, b2] =>
    if b0 < 128 then b0 :: utf8Decode [b1, b2]
    else if 194 ≤ b0 ∧ b0 ≤ 223 then
      if 128 ≤ b1 ∧ b1 ≤ 191 then cp2 b0 b1 :: utf8Decode [b2]
      else 65533 :: utf8Decode [b1, b2]
    else if 224 ≤ b0 ∧ b0 ≤ 239 then
      if contLo b0 ≤ b1 ∧ b1 ≤ contHi b0 then
        if 128 ≤ b2 ∧ b2 ≤ 191 then [cp3 b0 b1 b2] else 65533 :: utf8Decode [b2]
      else 65533 :: utf8Decode [b1, b2]
    else if 240 ≤ b0 ∧ b0 ≤ 244 then
      if contLo b0 ≤ b1 ∧ b1 ≤ contHi b0 then
        if 128 ≤ b2 ∧ b2 ≤ 191 then [65533] else 65533 :: utf8Decode [b2]
      else 65533 :: utf8Decode [b1, b2]
    else 65533 :: utf8Decode [b1, b2]
  | b0 :: b1 :: b2 :: b3 :: rest =>
    if b0 < 128 then b0 :: utf8Decode (b1 :: b2 :: b3 :: rest)
    else if 194 ≤ b0 ∧ b0 ≤ 223 then
      if 128 ≤ b1 ∧ b1 ≤ 191 then cp2 b0 b1 :: utf8Decode (b2 :: b3 :: rest)
      else 65533 :: utf8Decode (b1 :: b2 :: b3 :: rest)
    else if 224 ≤ b0 ∧ b0 ≤ 239 then
      if contLo b0 ≤ b1 ∧ b1 ≤ contHi b0 then
        if 128 ≤ b2 ∧ b2 ≤ 191 then cp3 b0 b1 b2 :: utf8Decode (b3 :: rest)
        else 65533 :: utf8Decode (b2 :: b3 :: rest)
      else 65533 :: utf8Decode (b1 :: b2 :: b3 :: rest)
    else if 240 ≤ b0 ∧ b0 ≤ 244 then
      if contLo b0 ≤ b1 ∧ b1 ≤ contHi b0 then
        if 128 ≤ b2 ∧ b2 ≤ 191 then
          if 128 ≤ b3 ∧ b3 ≤ 191 then surrogateUnits (cp4 b0 b1 b2 b3) ++ utf8Decode rest
          else 65533 :: utf8Decode (b3 :: rest)
        else 65533 :: utf8Decode (b2 :: b3 :: rest)
      else 65533 :: utf8Decode (b1 :: b2 :: b3 :: rest)
    else 65533 :: utf8Decode (b1 :: b2 :: b3 :: rest)

/-! ### The challenge decryptor (`decryptWecomEchoStr` in `server.js`) -/

/-- JavaScript's `String.prototype.trim()` whitespace set (WhiteSpace and
LineTerminator code points). -/
def jsWhitespace (c : Nat) : Bool :=
  decide ((9 ≤ c ∧ c ≤ 13) ∨ c = 32 ∨ c = 160 ∨ c = 5760 ∨ (8192 ≤ c ∧ c ≤ 8202) ∨
    c = 8232 ∨ c = 8233 ∨ c = 8239 ∨ c = 8287 ∨ c = 12288 ∨ c = 65279)

/-- JavaScript's `trim()`: strip whitespace from both ends. -/
def jsTrim (s : List Nat) : List Nat :=
  ((s.dropWhile jsWhitespace).reverse.dropWhile jsWhitespace).reverse

/-- First four bytes as a big-endian 32-bit word (0-extended, only applied
after a length guard, mirroring `readUInt32BE`). -/
def beWord4 : List Nat → Nat
  | b0 :: b1 :: b2 :: b3 :: _ => ((b0 * 256 + b1) * 256 + b2) * 256 + b3
  | _ => 0

/-- `plain.readUInt32BE(off)` for in-range `off`. -/
def readU32BE (l : List Nat) (off : Nat) : Nat := beWord4 (l.drop off)

/-- Error classes of the decryptor, following the specification's taxonomy:
`configError` for the two key-material checks, `decryptError` for cipher,
length-field and tenant failures, `rangeError` for the implicit
`readUInt32BE` bounds failure on plaintexts shorter than 20 bytes. -/
inductive WError where
  | configError : WError
  | decryptError : WError
  | rangeError : WError
deriving DecidableEq

instance {e a : Type} [DecidableEq e] [DecidableEq a] : DecidableEq (Except e a)
  | Except.ok x, Except.ok y =>
    if h : x = y then Decidable.isTrue (by rw [h]) else Decidable.isFalse (by simp [h])
  | Except.error x, Except.error y =>
    if h : x = y then Decidable.isTrue (by rw [h]) else Decidable.isFalse (by simp [h])
  | Except.ok _, Except.error _ => Decidable.isFalse (by simp)
  | Except.error _, Except.ok _ => Decidable.isFalse (by simp)

/-- Lines 83–99 of `server.js`: interpret the decrypted plaintext as
`random(16) ++ msg_len(4, big-endian) ++ msg ++ corpId`, guard the length
field, and enforce the tenant match on the UTF-8-decoded strings. -/
def parsePlain (corpId plain : List Nat) : Except WError (List Nat) :=
  if plain.length < 20 then Except.error WError.rangeError
  else
    let msgLen := readU32BE plain 16
    if plain.length < 20 + msgLen then Except.error WError.decryptError
    else
      let msg := utf8Decode ((plain.drop 20).take msgLen)
      let corpFromMsg := utf8Decode (plain.drop (20 + msgLen))
      if corpId ≠ [] ∧ corpFromMsg ≠ [] ∧ corpFromMsg ≠ corpId then
        Except.error WError.decryptError
      else Except.ok msg

/-- `decryptWecomEchoStr({encodingAESKey, corpId, echostrB64})`, the block
cipher (Node's AES-256 keyed by the 32-byte key) passed explicitly. -/
def decryptWecomEchoStr (blockDec : List Nat → List Nat → List Nat)
    (encodingAESKey corpId echostrB64 : List Nat) : Except WError (List Nat) :=
  let keyStr := jsTrim encodingAESKey
  if keyStr.length ≠ 43 then Except.error WError.configError
  else
    let aesKey := b64Decode (keyStr ++ [61])
    if aesKey.length ≠ 32 then Except.error WError.configError
    else
      match aesCbcDecrypt (blockDec aesKey) (aesKey.take 16) (b64Decode echostrB64) with
      | none => Except.error WError.decryptError
      | some plain => parsePlain corpId plain

/-! ### The verification route (`GET /wecom/kf-callback`, lines 207–254) -/

/-- Observable calls made by the route handler, in order. -/
inductive KfEvent where
  | verified : Bool → KfEvent
  | decrypted : KfEvent
deriving DecidableEq

/-- An HTTP response: status code and plain-text body (as code units). -/
structure KfResp where
  status : Nat
  body : List Nat
deriving DecidableEq

/-- The `GET /wecom/kf-callback` handler: missing query parameters give 400,
missing configuration gives 500, a failed signature gives 403, a decryption
error is caught as 500, success answers 200 with exactly the decrypted
plaintext. Query parameters and environment values are JS strings with `[]`
for absent-or-empty (both are falsy). The returned trace records the
verifier and decryptor invocations in order. -/
def kfCallbackGet (blockDec : List Nat → List Nat → List Nat)
    (kfToken encodingAESKey corpId : List Nat)
    (msgSignature timestamp nonce echostr : List Nat) : List KfEvent × KfResp :=
  if msgSignature = [] ∨ timestamp = [] ∨ nonce = [] ∨ echostr = [] then
    ([], ⟨400, ofStr "missing params"⟩)
  else if kfToken = [] ∨ encodingAESKey = [] ∨ corpId = [] then
    ([], ⟨500, ofStr "server misconfigured"⟩)
  else if verifyWecomSignature kfToken timestamp nonce msgSignature echostr = false then
    ([KfEvent.verified false], ⟨403, ofStr "Verification failed"⟩)
  else
    match decryptWecomEchoStr blockDec encodingAESKey corpId echostr with
    | Except.ok plaintext => ([KfEvent.verified true, KfEvent.decrypted], ⟨200, plaintext⟩)
    | Except.error _ =>
        ([KfEvent.verified true, KfEvent.decrypted], ⟨500, ofStr "Verification failed"⟩)

/-! ### Order lemmas for the JS string comparison -/

theorem lexLt_irrefl (a : List Nat) : lexLt a a = false := by
  induction a with
  | nil => rfl
  | cons x xs ih => simp [lexLt, ih]

theorem lexLt_trans : ∀ a b c : List Nat,
    lexLt a b = true → lexLt b c = true → lexLt a c = true := by
  intro a
  induction a with
  | nil =>
    intro b c hab hbc
    cases c with
    | nil => cases b <;> simp [lexLt] at hbc
    | cons z zs => simp [lexLt]
  | cons x xs ih =>
    intro b c hab hbc
    cases b with
    | nil => simp [lexLt] at hab
    | cons y ys =>
      cases c with
      | nil => simp [lexLt] at hbc
      | cons z zs =>
        simp only [lexLt] at hab hbc ⊢
        by_cases hxy : x < y
        · by_cases hyz : y < z
          · have hxz : x < z := Nat.lt_trans hxy hyz
            simp [hxz]
          · by_cases hzy : z < y
            · simp [hyz, hzy] at hbc
            · have heq : y = z := Nat.le_antisymm (Nat.le_of_not_lt hzy) (Nat.le_of_not_lt hyz)
              subst heq
              simp [hxy]
        · by_cases hyx : y < x
          · simp [hxy, hyx] at hab
          · have heq : x = y := Nat.le_antisymm (Nat.le_of_not_lt hyx) (Nat.le_of_not_lt hxy)
            subst heq
            simp only [if_neg (lt_irrefl x)] at hab
            by_cases hyz : x < z
            · simp [hyz]
            · by_cases hzy : z < x
              · simp [hyz, hzy] at hbc
              · simp only [if_neg hyz, if_neg hzy] at hbc ⊢
                exact ih ys zs hab hbc

theorem lexLt_connex : ∀ a b : List Nat,
    lexLt a b = false → lexLt b a = false → a = b := by
  intro a
  induction a with
  | nil =>
    intro b hab _
    cases b with
    | nil => rfl
    | cons y ys => simp [lexLt] at hab
  | cons x xs ih =>
    intro b hab hba
    cases b with
    | nil => simp [lexLt] at hba
    | cons y ys =>
      simp only [lexLt] at hab hba
      by_cases hxy : x < y
      · simp [hxy] at hab
      · by_cases hyx : y < x
        · simp [hyx] at hba
        · have heq : x = y := Nat.le_antisymm (Nat.le_of_not_lt hyx) (Nat.le_of_not_lt hxy)
          subst heq
          simp only [if_neg (lt_irrefl x)] at hab hba
          rw [ih ys hab hba]

theorem lexLt_asymm {a b : List Nat} (h : lexLt a b = true) : lexLt b a = false := by
  by_contra hba
  have hba' : lexLt b a = true := by
    cases hb : lexLt b a
    · exact absurd hb hba
    · rfl
  have hself : lexLt a a = true := lexLt_trans a b a h hba'
  rw [lexLt_irrefl] at hself
  exact Bool.false_ne_true hself

/-- Transitivity in the non-strict form used by `jsLe`. -/
theorem lexLt_false_trans {a b c : List Nat}
    (hab : lexLt b a = false) (hbc : lexLt c b = false) : lexLt c a = false := by
  by_cases h1 : lexLt a b = true
  · by_cases h2 : lexLt b c = true
    · exact lexLt_asymm (lexLt_trans a b c h1 h2)
    · have h2' : lexLt b c = false := Bool.eq_false_iff.mpr h2
      have heq : b = c := lexLt_connex b c h2' hbc
      exact heq ▸ hab
  · have h1' : lexLt a b = false := Bool.eq_false_iff.mpr h1
    have heq : a = b := lexLt_connex a b h1' hab
    exact heq ▸ hbc

/-- Sorting under `jsLe` depends only on the multiset of elements: the
image of any correct sort (such as JavaScript's) is unique, since `jsLe` is
total, transitive and antisymmetric. -/
theorem insertionSort_congr {l l' : List (List Nat)} (h : List.Perm l l') :
    List.insertionSort jsLe l = List.insertionSort jsLe l' := by
  haveI : IsTotal (List Nat) jsLe := ⟨fun a b => by
    unfold jsLe
    cases hba : lexLt b a
    · exact Or.inl rfl
    · exact Or.inr (lexLt_asymm hba)⟩
  haveI : IsTrans (List Nat) jsLe := ⟨fun _ _ _ hab hbc => lexLt_false_trans hab hbc⟩
  haveI : IsAntisymm (List Nat) jsLe := ⟨fun a b hab hba => lexLt_connex a b hba hab⟩
  exact List.eq_of_perm_of_sorted
    ((List.perm_insertionSort jsLe l).trans (h.trans (List.perm_insertionSort jsLe l').symm))
    (List.sorted_insertionSort jsLe l) (List.sorted_insertionSort jsLe l')

theorem chunksF_fuel (k : Nat) : ∀ f1 f2 l, l.length ≤ f1 → l.length ≤ f2 →
    chunksF k f1 l = chunksF k f2 l := by
  intro f1
  induction f1 with
  | zero =>
    intro f2 l h1 _
    have hl : l = [] := List.eq_nil_of_length_eq_zero (Nat.le_zero.mp h1)
    subst hl
    cases f2 <;> rfl
  | succ f ih =>
    intro f2 l h1 h2
    cases l with
    | nil => cases f2 <;> rfl
    | cons x xs =>
      cases f2 with
      | zero => simp at h2
      | succ f2' =>
        simp only [chunksF]
        congr 1
        apply ih
        · simp only [List.length_drop, List.length_cons] at *
          omega
        · simp only [List.length_drop, List.length_cons] at *
          omega

/-- Unfolding equation for `chunks` on a nonempty list. -/
theorem chunks_cons (k x : Nat) (xs : List Nat) :
    chunks k (x :: xs) = (x :: xs).take (k + 1) :: chunks k ((x :: xs).drop (k + 1)) := by
  show chunksF k (xs.length + 1) (x :: xs) = _
  simp only [chunksF]
  congr 1
  apply chunksF_fuel
  · simp only [List.length_drop, List.length_cons]
    omega
  · exact Nat.le_refl _

/-! ### Supporting lemmas: chunking, CBC and PKCS#7 round trips -/

theorem flatten_chunksF (k : Nat) : ∀ f l, l.length ≤ f → List.flatten (chunksF k f l) = l := by
  intro f
  induction f with
  | zero =>
    intro l h
    have hl : l = [] := List.eq_nil_of_length_eq_zero (Nat.le_zero.mp h)
    subst hl
    rfl
  | succ f ih =>
    intro l h
    cases l with
    | nil => rfl
    | cons x xs =>
      simp only [chunksF, List.flatten_cons]
      rw [ih]
      · exact List.take_append_drop (k + 1) (x :: xs)
      · simp only [List.length_drop, List.length_cons] at *
        omega

theorem flatten_chunks (k : Nat) (l : List Nat) : List.flatten (chunks k l) = l :=
  flatten_chunksF k l.length l (Nat.le_refl _)

theorem chunks_block_length : ∀ f l, l.length ≤ f → l.length % 16 = 0 →
    ∀ b ∈ chunksF 15 f l, b.length = 16 := by
  intro f
  induction f with
  | zero =>
    intro l h _ b hb
    have hl : l = [] := List.eq_nil_of_length_eq_zero (Nat.le_zero.mp h)
    subst hl
    simp [chunksF] at hb
  | succ f ih =>
    intro l h hmod b hb
    cases l with
    | nil => simp [chunksF] at hb
    | cons x xs =>
      simp only [chunksF, List.mem_cons] at hb
      have hlen : 16 ≤ (x :: xs).length := by
        simp only [List.length_cons] at *
        omega
      rcases hb with hb | hb
      · subst hb
        simp only [List.length_take]
        omega
      · refine ih _ ?_ ?_ b hb
        · simp only [List.length_drop, List.length_cons] at *
          omega
        · simp only [List.length_drop, List.length_cons] at *
          omega

/-- Chunking inverts flattening when every block has length 16. -/
theorem chunks_flatten_blocks : ∀ bs : List (List Nat), (∀ b ∈ bs, b.length = 16) →
    chunks 15 (List.flatten bs) = bs := by
  intro bs
  induction bs with
  | nil => intro _; rfl
  | cons b rest ih =>
    intro hlen
    have hb : b.length = 16 := hlen b (List.mem_cons_self b rest)
    cases b with
    | nil => simp at hb
    | cons x xs =>
      show chunks 15 ((x :: xs) ++ List.flatten rest) = _
      rw [List.cons_append, chunks_cons, ← List.cons_append]
      have h16 : (x :: xs).length = 16 := hb
      rw [List.take_left' h16, List.drop_left' h16]
      rw [ih (fun c hc => hlen c (List.mem_cons_of_mem _ hc))]

theorem xorBytes_length (a b : List Nat) : (xorBytes a b).length = min a.length b.length :=
  List.length_zipWith _ a b

theorem xorBytes_cancel : ∀ a b : List Nat, a.length = b.length →
    xorBytes (xorBytes a b) b = a := by
  intro a
  induction a with
  | nil => intro b _; cases b <;> rfl
  | cons x xs ih =>
    intro b h
    cases b with
    | nil => simp at h
    | cons y ys =>
      simp only [xorBytes, List.zipWith_cons_cons] at *
      rw [Nat.xor_cancel_right]
      have := ih ys (by simpa using h)
      simp only [xorBytes] at this
      rw [this]

theorem cbcEncBlocks_length (enc : List Nat → List Nat)
    (hlen : ∀ b : List Nat, b.length = 16 → (enc b).length = 16) :
    ∀ bs prev, prev.length = 16 → (∀ b ∈ bs, b.length = 16) →
      ∀ c ∈ cbcEncBlocks enc prev bs, c.length = 16 := by
  intro bs
  induction bs with
  | nil => intro prev _ _ c hc; simp [cbcEncBlocks] at hc
  | cons p ps ih =>
    intro prev hprev hbs c hc
    have hp : p.length = 16 := hbs p (List.mem_cons_self p ps)
    have hxor : (xorBytes p prev).length = 16 := by
      rw [xorBytes_length, hp, hprev]
      exact Nat.min_self 16
    have henc : (enc (xorBytes p prev)).length = 16 := hlen _ hxor
    simp only [cbcEncBlocks, List.mem_cons] at hc
    rcases hc with hc | hc
    · exact hc ▸ henc
    · exact ih _ henc (fun b hb => hbs b (List.mem_cons_of_mem _ hb)) c hc

/-- CBC decryption chains invert CBC encryption chains blockwise. -/
theorem cbcDecBlocks_encBlocks (enc dec : List Nat → List Nat)
    (hinv : ∀ b : List Nat, b.length = 16 → dec (enc b) = b)
    (hlen : ∀ b : List Nat, b.length = 16 → (enc b).length = 16) :
    ∀ bs prev, prev.length = 16 → (∀ b ∈ bs, b.length = 16) →
      cbcDecBlocks dec prev (cbcEncBlocks enc prev bs) = bs := by
  intro bs
  induction bs with
  | nil => intro prev _ _; rfl
  | cons p ps ih =>
    intro prev hprev hbs
    have hp : p.length = 16 := hbs p (List.mem_cons_self p ps)
    have hxor : (xorBytes p prev).length = 16 := by
      rw [xorBytes_length, hp, hprev]
      exact Nat.min_self 16
    simp only [cbcEncBlocks, cbcDecBlocks]
    rw [hinv _ hxor, xorBytes_cancel p prev (by rw [hp, hprev])]
    rw [ih _ (hlen _ hxor) (fun b hb => hbs b (List.mem_cons_of_mem _ hb))]

theorem pkcs7Pad_length (l : List Nat) :
    (pkcs7Pad l).length = l.length + (16 - l.length % 16) := by
  simp [pkcs7Pad]

theorem pkcs7Pad_mod (l : List Nat) : (pkcs7Pad l).length % 16 = 0 := by
  rw [pkcs7Pad_length]
  omega

theorem pkcs7Pad_ne_nil (l : List Nat) : pkcs7Pad l ≠ [] := by
  intro h
  have := congrArg List.length h
  rw [pkcs7Pad_length] at this
  simp at this
  omega

theorem replicate_concat (p a : Nat) (hp : 1 ≤ p) :
    List.replicate p a = List.replicate (p - 1) a ++ [a] := by
  obtain ⟨q, rfl⟩ : ∃ q, p = q + 1 := ⟨p - 1, by omega⟩
  simp [List.replicate_succ']

/-- PKCS#7 unpadding inverts PKCS#7 padding. -/
theorem pkcs7Unpad_pad (l : List Nat) : pkcs7Unpad (pkcs7Pad l) = some l := by
  have hp1 : 1 ≤ 16 - l.length % 16 := by omega
  have hp16 : 16 - l.length % 16 ≤ 16 := by omega
  set p := 16 - l.length % 16 with hp
  have hsplit : pkcs7Pad l = (l ++ List.replicate (p - 1) p) ++ [p] := by
    unfold pkcs7Pad
    rw [← hp, replicate_concat p p hp1, List.append_assoc]
  have hlast : (pkcs7Pad l).getLast? = some p := by
    rw [hsplit]
    exact List.getLast?_concat _
  have hlen : (pkcs7Pad l).length = l.length + p := by
    rw [pkcs7Pad_length, ← hp]
  have hdrop : (pkcs7Pad l).drop ((pkcs7Pad l).length - p) = List.replicate p p := by
    have heq : (pkcs7Pad l).length - p = l.length := by omega
    rw [heq]
    show (l ++ List.replicate p p).drop l.length = _
    exact List.drop_left' rfl
  have htake : (pkcs7Pad l).take ((pkcs7Pad l).length - p) = l := by
    have heq : (pkcs7Pad l).length - p = l.length := by omega
    rw [heq]
    show (l ++ List.replicate p p).take l.length = _
    exact List.take_left' rfl
  unfold pkcs7Unpad
  rw [hlast]
  show (if 1 <= p /\ p <= 16 /\ p <= (pkcs7Pad l).length /\
      (pkcs7Pad l).drop ((pkcs7Pad l).length - p) = List.replicate p p then
    some ((pkcs7Pad l).take ((pkcs7Pad l).length - p)) else none) = some l
  rw [if_pos ⟨hp1, hp16, by omega, hdrop⟩, htake]

theorem flatten_blocks_length (bs : List (List Nat)) (hb : ∀ b ∈ bs, b.length = 16) :
    (List.flatten bs).length = 16 * bs.length := by
  induction bs with
  | nil => rfl
  | cons b rest ih =>
    simp only [List.flatten_cons, List.length_append, List.length_cons]
    rw [hb b (List.mem_cons_self b rest), ih (fun c hc => hb c (List.mem_cons_of_mem _ hc))]
    ring

theorem cbcEncBlocks_count (enc : List Nat → List Nat) :
    ∀ bs prev, (cbcEncBlocks enc prev bs).length = bs.length := by
  intro bs
  induction bs with
  | nil => intro _; rfl
  | cons p ps ih =>
    intro prev
    simp only [cbcEncBlocks, List.length_cons, ih]

theorem chunks15_ne_nil (l : List Nat) (h : l ≠ []) : chunks 15 l ≠ [] := by
  cases l with
  | nil => exact absurd rfl h
  | cons x xs =>
    rw [chunks_cons]
    exact List.cons_ne_nil _ _

/-- AES-CBC with PKCS#7 round trip, for any block cipher/inverse pair. -/
theorem aesCbc_round_trip (enc dec : List Nat → List Nat)
    (hinv : ∀ b : List Nat, b.length = 16 → dec (enc b) = b)
    (hlen : ∀ b : List Nat, b.length = 16 → (enc b).length = 16)
    (iv pt : List Nat) (hiv : iv.length = 16) :
    aesCbcDecrypt dec iv (aesCbcEncrypt enc iv pt) = some pt := by
  have hblocks : ∀ b ∈ chunks 15 (pkcs7Pad pt), b.length = 16 :=
    chunks_block_length _ _ (Nat.le_refl _) (pkcs7Pad_mod pt)
  have hencBlocks : ∀ c ∈ cbcEncBlocks enc iv (chunks 15 (pkcs7Pad pt)), c.length = 16 :=
    cbcEncBlocks_length enc hlen _ iv hiv hblocks
  have hctEq : aesCbcEncrypt enc iv pt =
      List.flatten (cbcEncBlocks enc iv (chunks 15 (pkcs7Pad pt))) := rfl
  have hmod : (aesCbcEncrypt enc iv pt).length % 16 = 0 := by
    rw [hctEq, flatten_blocks_length _ hencBlocks]
    omega
  have hne : (aesCbcEncrypt enc iv pt).length ≠ 0 := by
    rw [hctEq, flatten_blocks_length _ hencBlocks, cbcEncBlocks_count]
    have h1 : chunks 15 (pkcs7Pad pt) ≠ [] := chunks15_ne_nil _ (pkcs7Pad_ne_nil pt)
    have h2 : 0 < (chunks 15 (pkcs7Pad pt)).length := List.length_pos.mpr h1
    omega
  have hchunks : chunks 15 (aesCbcEncrypt enc iv pt) =
      cbcEncBlocks enc iv (chunks 15 (pkcs7Pad pt)) := by
    rw [hctEq]
    exact chunks_flatten_blocks _ hencBlocks
  unfold aesCbcDecrypt
  rw [if_neg (by push_neg; exact ⟨hne, hmod⟩)]
  rw [hchunks, cbcDecBlocks_encBlocks enc dec hinv hlen _ iv hiv hblocks,
    flatten_chunks]
  exact pkcs7Unpad_pad pt

/-! ### Computed sanity checks -/

set_option maxRecDepth 4000 in
example : sha1Hex [] = ofStr "da39a3ee5e6b4b0d3255bfef95601890afd80709" := by decide

set_option maxRecDepth 4000 in
example : sha1Hex (ofStr "abc") = ofStr "a9993e364706816aba3e25717850c26c9cd0d89d" := by decide

set_option maxRecDepth 8000 in
example : decryptWecomEchoStr (fun _ b => b) (ofStr "AAAAAAAAAAAAAAAAAAAAAAAAAAAAAAAAAAAAAAAAAAA")
    (ofStr "c") (ofStr "AAAAAAAAAAAAAAAAAAAAAAAAAAJva2MJCQkJCQkJCQk=") = Except.ok (ofStr "ok") := by
  decide

set_option maxRecDepth 8000 in
example : kfCallbackGet (fun _ b => b) (ofStr "t")
    (ofStr "AAAAAAAAAAAAAAAAAAAAAAAAAAAAAAAAAAAAAAAAAAA") (ofStr "c")
    (ofStr "d27b93c2f127e7d4f3f783478e6efe9656655a1d") (ofStr "1") (ofStr "n")
    (ofStr "AAAAAAAAAAAAAAAAAAAAAAAAAAJva2MJCQkJCQkJCQk=") =
      ([KfEvent.verified true, KfEvent.decrypted], ⟨200, ofStr "ok"⟩) := by
  decide

/-! ### Claims about the verifier -/

set_option maxRecDepth 8000 in
/-- C1 (counterexample): the claim fails as stated. With
`token = "\u{10000}"` (code units `[55296, 56320]`, UTF-8 `f0 90 80 80`),
`timestamp = "\u{e000}"` (unit `[57344]`, UTF-8 `ee 80 80`), empty nonce and
payload, and `signature` equal to the lowercase-hex SHA-1 of the
concatenation sorted by byte-wise (UTF-8) ordering, the claim demands
`true`, but `verifyWecomSignature` sorts by UTF-16 code-unit order
(JavaScript's default `sort()`), concatenates in the other order, and
returns `false`. -/
theorem c1_byte_order_counterexample :
    verifyWecomSignatureSpec [55296, 56320] [57344] []
        (ofStr "d99e6807ec5749e5226c77a90419504dc475d955") [] = true ∧
      verifyWecomSignature [55296, 56320] [57344] []
        (ofStr "d99e6807ec5749e5226c77a90419504dc475d955") [] = false := by
  constructor <;> decide

/-- C1 (amended): `verifyWecomSignature` returns `true` iff `signature`
equals the lowercase hexadecimal SHA-1 of the UTF-8 bytes of the
concatenation (no separator) of the four strings `{token, timestamp, nonce,
payload}` after sorting them by JavaScript's default string ordering
(lexicographic on UTF-16 code units). -/
theorem c1_verify_characterization (token timestamp nonce signature payload : List Nat) :
    verifyWecomSignature token timestamp nonce signature payload = true ↔
      signature =
        hexUnits (sha1Bytes (utf8OfUnits
          (List.flatten (List.insertionSort jsLe [token, timestamp, nonce, payload])))) := by
  unfold verifyWecomSignature sha1Hex
  rw [beq_iff_eq]
  exact eq_comm

/-- C3: `verifyWecomSignature` is deterministic (equal inputs give equal
results) and invariant under permuting timestamp, nonce and payload among
themselves before sorting. -/
theorem c3_verify_deterministic_perm_invariant
    (token ts nonce sig payload ts' nonce' payload' : List Nat)
    (hperm : List.Perm [ts', nonce', payload'] [ts, nonce, payload]) :
    verifyWecomSignature token ts nonce sig payload =
        verifyWecomSignature token ts nonce sig payload ∧
      verifyWecomSignature token ts' nonce' sig payload' =
        verifyWecomSignature token ts nonce sig payload := by
  refine ⟨rfl, ?_⟩
  unfold verifyWecomSignature
  rw [insertionSort_congr (List.Perm.cons token hperm)]

/-- Witness for C3 at concrete inputs: the permutation hypothesis holds and
the theorem applies. -/
theorem c3_verify_deterministic_perm_invariant_witness :
    List.Perm [ofStr "n1", ofStr "pay", ofStr "1700"] [ofStr "1700", ofStr "n1", ofStr "pay"] ∧
      (verifyWecomSignature (ofStr "tok") (ofStr "1700") (ofStr "n1") (ofStr "sig") (ofStr "pay") =
          verifyWecomSignature (ofStr "tok") (ofStr "1700") (ofStr "n1") (ofStr "sig")
            (ofStr "pay") ∧
        verifyWecomSignature (ofStr "tok") (ofStr "n1") (ofStr "pay") (ofStr "sig") (ofStr "1700") =
          verifyWecomSignature (ofStr "tok") (ofStr "1700") (ofStr "n1") (ofStr "sig")
            (ofStr "pay")) :=
  ⟨by decide,
    c3_verify_deterministic_perm_invariant (ofStr "tok") (ofStr "1700") (ofStr "n1") (ofStr "sig")
      (ofStr "pay") (ofStr "n1") (ofStr "pay") (ofStr "1700") (by decide)⟩

set_option maxRecDepth 8000 in
/-- C9: `verifyWecomSignature` is total — it returns a boolean for every
five strings (no exception is modelled because no operation in the source
function can throw), and empty fields are not rejected: with all-empty
token, timestamp, nonce and payload it still computes the digest of the
empty concatenation and compares it to the signature. -/
theorem c9_verify_total (token ts nonce sig payload : List Nat) :
    (verifyWecomSignature token ts nonce sig payload = true ∨
      verifyWecomSignature token ts nonce sig payload = false) ∧
      verifyWecomSignature [] [] [] (ofStr "da39a3ee5e6b4b0d3255bfef95601890afd80709") [] = true := by
  constructor
  · exact Bool.eq_false_or_eq_true (verifyWecomSignature token ts nonce sig payload)
  · decide

/-! ### Claims about the decryptor -/

/-- C4: for every key material, when the trimmed key material's length is
not 43, or when base64-decoding it with one `=` appended does not yield 32
bytes, `decryptWecomEchoStr` fails with `ConfigError`; the result holds for
every block cipher, so no decryption is attempted. -/
theorem c4_key_material_config_error (encodingAESKey corpId echostr : List Nat)
    (h : (jsTrim encodingAESKey).length ≠ 43 ∨
      (b64Decode (jsTrim encodingAESKey ++ [61])).length ≠ 32) :
    ∀ blockDec : List Nat → List Nat → List Nat,
      decryptWecomEchoStr blockDec encodingAESKey corpId echostr =
        Except.error WError.configError := by
  intro blockDec
  simp only [decryptWecomEchoStr]
  by_cases h43 : (jsTrim encodingAESKey).length = 43
  · have h32 : (b64Decode (jsTrim encodingAESKey ++ [61])).length ≠ 32 := by
      rcases h with h | h
      · exact absurd h43 h
      · exact h
    rw [if_neg (not_not_intro h43), if_pos h32]
  · rw [if_pos h43]

/-- Witness for C4 at key materials of length 42, of length 44, and of
length 43 whose characters are outside the base64 alphabet (so the decoded
key is empty rather than 32 bytes). -/
theorem c4_key_material_config_error_witness :
    ((jsTrim (ofStr "AAAAAAAAAAAAAAAAAAAAAAAAAAAAAAAAAAAAAAAAAA")).length ≠ 43 ∨
        (b64Decode (jsTrim (ofStr "AAAAAAAAAAAAAAAAAAAAAAAAAAAAAAAAAAAAAAAAAA") ++ [61])).length ≠
          32) ∧
      decryptWecomEchoStr (fun _ b => b) (ofStr "AAAAAAAAAAAAAAAAAAAAAAAAAAAAAAAAAAAAAAAAAA")
          (ofStr "c") (ofStr "x") = Except.error WError.configError ∧
      decryptWecomEchoStr (fun _ b => b) (ofStr "AAAAAAAAAAAAAAAAAAAAAAAAAAAAAAAAAAAAAAAAAAAA")
          (ofStr "c") (ofStr "x") = Except.error WError.configError ∧
      decryptWecomEchoStr (fun _ b => b) (ofStr "!!!!!!!!!!!!!!!!!!!!!!!!!!!!!!!!!!!!!!!!!!!")
          (ofStr "c") (ofStr "x") = Except.error WError.configError :=
  ⟨by decide,
    c4_key_material_config_error _ _ _ (by decide) _,
    c4_key_material_config_error _ _ _ (by decide) _,
    c4_key_material_config_error _ _ _ (by decide) _⟩

/-- C5: under a valid key material (trimmed length 43, decoding to 32
bytes), `decryptWecomEchoStr` derives the IV as exactly the first 16 bytes
of the decoded key, base64-decodes the ciphertext, and AES-CBC-decrypts it
under that key and IV with PKCS#7 removal (`aesCbcDecrypt`); a cipher or
padding failure is a `DecryptError`, and a successful plaintext is handed
to the structural parse. -/
theorem c5_iv_from_key_and_cbc (blockDec : List Nat → List Nat → List Nat)
    (encodingAESKey corpId echostr : List Nat)
    (hkey : (jsTrim encodingAESKey).length = 43)
    (hklen : (b64Decode (jsTrim encodingAESKey ++ [61])).length = 32) :
    decryptWecomEchoStr blockDec encodingAESKey corpId echostr =
      match aesCbcDecrypt (blockDec (b64Decode (jsTrim encodingAESKey ++ [61])))
          ((b64Decode (jsTrim encodingAESKey ++ [61])).take 16) (b64Decode echostr) with
      | none => Except.error WError.decryptError
      | some plain => parsePlain corpId plain := by
  simp only [decryptWecomEchoStr]
  rw [if_neg (not_not_intro hkey), if_neg (not_not_intro hklen)]

/-- Witness for C5: the all-`A` key material is valid, and on a concrete
ciphertext the equation holds. -/
theorem c5_iv_from_key_and_cbc_witness :
    (jsTrim (ofStr "AAAAAAAAAAAAAAAAAAAAAAAAAAAAAAAAAAAAAAAAAAA")).length = 43 ∧
      (b64Decode (jsTrim (ofStr "AAAAAAAAAAAAAAAAAAAAAAAAAAAAAAAAAAAAAAAAAAA") ++ [61])).length =
        32 ∧
      decryptWecomEchoStr (fun _ b => b) (ofStr "AAAAAAAAAAAAAAAAAAAAAAAAAAAAAAAAAAAAAAAAAAA")
          (ofStr "c") (ofStr "AAAAAAAAAAAAAAAAAAAAAAAAAAJva2MJCQkJCQkJCQk=") =
        match aesCbcDecrypt ((fun _ b => b)
              (b64Decode (jsTrim (ofStr "AAAAAAAAAAAAAAAAAAAAAAAAAAAAAAAAAAAAAAAAAAA") ++ [61])))
            ((b64Decode (jsTrim (ofStr "AAAAAAAAAAAAAAAAAAAAAAAAAAAAAAAAAAAAAAAAAAA") ++
              [61])).take 16)
            (b64Decode (ofStr "AAAAAAAAAAAAAAAAAAAAAAAAAAJva2MJCQkJCQkJCQk=")) with
        | none => Except.error WError.decryptError
        | some plain => parsePlain (ofStr "c") plain :=
  ⟨by decide, by decide,
    c5_iv_from_key_and_cbc (fun _ b => b) (ofStr "AAAAAAAAAAAAAAAAAAAAAAAAAAAAAAAAAAAAAAAAAAA")
      (ofStr "c") (ofStr "AAAAAAAAAAAAAAAAAAAAAAAAAAJva2MJCQkJCQkJCQk=") (by decide) (by decide)⟩

/-- C6: when decryption succeeds but the 4-byte big-endian length field at
offset 16 makes `20 + L` exceed the plaintext length, the decryptor fails
with `DecryptError` and returns no message. -/
theorem c6_length_field_overflow (blockDec : List Nat → List Nat → List Nat)
    (encodingAESKey corpId echostr plain : List Nat)
    (hkey : (jsTrim encodingAESKey).length = 43)
    (hklen : (b64Decode (jsTrim encodingAESKey ++ [61])).length = 32)
    (hcbc : aesCbcDecrypt (blockDec (b64Decode (jsTrim encodingAESKey ++ [61])))
        ((b64Decode (jsTrim encodingAESKey ++ [61])).take 16) (b64Decode echostr) = some plain)
    (h20 : 20 ≤ plain.length)
    (hover : plain.length < 20 + readU32BE plain 16) :
    decryptWecomEchoStr blockDec encodingAESKey corpId echostr =
      Except.error WError.decryptError := by
  rw [c5_iv_from_key_and_cbc blockDec encodingAESKey corpId echostr hkey hklen, hcbc]
  show parsePlain corpId plain = _
  simp only [parsePlain]
  rw [if_neg (by omega), if_pos hover]

/-- C10: when decryption succeeds but the plaintext is shorter than 20
bytes, the decryptor raises an error (`readUInt32BE(16)` is out of range)
rather than returning a value. -/
theorem c10_short_plaintext_range_error (blockDec : List Nat → List Nat → List Nat)
    (encodingAESKey corpId echostr plain : List Nat)
    (hkey : (jsTrim encodingAESKey).length = 43)
    (hklen : (b64Decode (jsTrim encodingAESKey ++ [61])).length = 32)
    (hcbc : aesCbcDecrypt (blockDec (b64Decode (jsTrim encodingAESKey ++ [61])))
        ((b64Decode (jsTrim encodingAESKey ++ [61])).take 16) (b64Decode echostr) = some plain)
    (hshort : plain.length < 20) :
    decryptWecomEchoStr blockDec encodingAESKey corpId echostr =
      Except.error WError.rangeError := by
  rw [c5_iv_from_key_and_cbc blockDec encodingAESKey corpId echostr hkey hklen, hcbc]
  show parsePlain corpId plain = _
  simp only [parsePlain]
  rw [if_pos hshort]

/-- C7: on a well-formed decryption (length field in range), the decryptor
fails with `DecryptError` exactly when the configured tenant identifier is
non-empty, the recovered tenant identifier (the UTF-8 decoding of the bytes
after the message payload) is non-empty, and the two differ; otherwise it
succeeds with the message payload. -/
theorem c7_tenant_mismatch (blockDec : List Nat → List Nat → List Nat)
    (encodingAESKey corpId echostr plain : List Nat)
    (hkey : (jsTrim encodingAESKey).length = 43)
    (hklen : (b64Decode (jsTrim encodingAESKey ++ [61])).length = 32)
    (hcbc : aesCbcDecrypt (blockDec (b64Decode (jsTrim encodingAESKey ++ [61])))
        ((b64Decode (jsTrim encodingAESKey ++ [61])).take 16) (b64Decode echostr) = some plain)
    (h20 : 20 ≤ plain.length)
    (hfit : 20 + readU32BE plain 16 ≤ plain.length) :
    decryptWecomEchoStr blockDec encodingAESKey corpId echostr =
      if corpId ≠ [] ∧ utf8Decode (plain.drop (20 + readU32BE plain 16)) ≠ [] ∧
          utf8Decode (plain.drop (20 + readU32BE plain 16)) ≠ corpId then
        Except.error WError.decryptError
      else Except.ok (utf8Decode ((plain.drop 20).take (readU32BE plain 16))) := by
  rw [c5_iv_from_key_and_cbc blockDec encodingAESKey corpId echostr hkey hklen, hcbc]
  show parsePlain corpId plain = _
  simp only [parsePlain]
  rw [if_neg (by omega), if_neg (by omega)]

/-- Witness for C6: a ciphertext decrypting (identity block cipher, all-`A`
key material) to a 20-byte plaintext whose length field claims 256 bytes. -/
theorem c6_length_field_overflow_witness :
    (jsTrim (ofStr "AAAAAAAAAAAAAAAAAAAAAAAAAAAAAAAAAAAAAAAAAAA")).length = 43 ∧
      (b64Decode (jsTrim (ofStr "AAAAAAAAAAAAAAAAAAAAAAAAAAAAAAAAAAAAAAAAAAA") ++ [61])).length =
        32 ∧
      aesCbcDecrypt ((fun _ b => b)
          (b64Decode (jsTrim (ofStr "AAAAAAAAAAAAAAAAAAAAAAAAAAAAAAAAAAAAAAAAAAA") ++ [61])))
        ((b64Decode (jsTrim (ofStr "AAAAAAAAAAAAAAAAAAAAAAAAAAAAAAAAAAAAAAAAAAA") ++
          [61])).take 16)
        (b64Decode (ofStr "AAAAAAAAAAAAAAAAAAAAAAAAAQAMDAwMDAwMDAwMDAw=")) =
        some (List.replicate 16 0 ++ [0, 0, 1, 0]) ∧
      20 ≤ (List.replicate 16 0 ++ [0, 0, 1, 0]).length ∧
      (List.replicate 16 0 ++ [0, 0, 1, 0]).length <
        20 + readU32BE (List.replicate 16 0 ++ [0, 0, 1, 0]) 16 ∧
      decryptWecomEchoStr (fun _ b => b) (ofStr "AAAAAAAAAAAAAAAAAAAAAAAAAAAAAAAAAAAAAAAAAAA")
        (ofStr "c") (ofStr "AAAAAAAAAAAAAAAAAAAAAAAAAQAMDAwMDAwMDAwMDAw=") =
        Except.error WError.decryptError :=
  ⟨by decide, by decide, by decide, by decide, by decide,
    c6_length_field_overflow (fun _ b => b) (ofStr "AAAAAAAAAAAAAAAAAAAAAAAAAAAAAAAAAAAAAAAAAAA")
      (ofStr "c") (ofStr "AAAAAAAAAAAAAAAAAAAAAAAAAQAMDAwMDAwMDAwMDAw=")
      (List.replicate 16 0 ++ [0, 0, 1, 0]) (by decide) (by decide) (by decide) (by decide)
      (by decide)⟩

/-- Witness for C10: a ciphertext (one block of `0x10` bytes, identity block
cipher, all-zero key) whose PKCS#7 unpadding yields an empty plaintext. -/
theorem c10_short_plaintext_range_error_witness :
    (jsTrim (ofStr "AAAAAAAAAAAAAAAAAAAAAAAAAAAAAAAAAAAAAAAAAAA")).length = 43 ∧
      (b64Decode (jsTrim (ofStr "AAAAAAAAAAAAAAAAAAAAAAAAAAAAAAAAAAAAAAAAAAA") ++ [61])).length =
        32 ∧
      aesCbcDecrypt ((fun _ b => b)
          (b64Decode (jsTrim (ofStr "AAAAAAAAAAAAAAAAAAAAAAAAAAAAAAAAAAAAAAAAAAA") ++ [61])))
        ((b64Decode (jsTrim (ofStr "AAAAAAAAAAAAAAAAAAAAAAAAAAAAAAAAAAAAAAAAAAA") ++
          [61])).take 16)
        (b64Decode (ofStr "EBAQEBAQEBAQEBAQEBAQEA==")) = some [] ∧
      ([] : List Nat).length < 20 ∧
      decryptWecomEchoStr (fun _ b => b) (ofStr "AAAAAAAAAAAAAAAAAAAAAAAAAAAAAAAAAAAAAAAAAAA")
        (ofStr "c") (ofStr "EBAQEBAQEBAQEBAQEBAQEA==") = Except.error WError.rangeError :=
  ⟨by decide, by decide, by decide, by decide,
    c10_short_plaintext_range_error (fun _ b => b)
      (ofStr "AAAAAAAAAAAAAAAAAAAAAAAAAAAAAAAAAAAAAAAAAAA") (ofStr "c")
      (ofStr "EBAQEBAQEBAQEBAQEBAQEA==") [] (by decide) (by decide) (by decide) (by decide)⟩

/-- Witness for C7 at the valid concrete scenario (message `"ok"`, tenant
`"c"`, matching): the guarded equation holds, and its right-hand side is the
successful payload. -/
theorem c7_tenant_mismatch_witness :
    (jsTrim (ofStr "AAAAAAAAAAAAAAAAAAAAAAAAAAAAAAAAAAAAAAAAAAA")).length = 43 ∧
      (b64Decode (jsTrim (ofStr "AAAAAAAAAAAAAAAAAAAAAAAAAAAAAAAAAAAAAAAAAAA") ++ [61])).length =
        32 ∧
      aesCbcDecrypt ((fun _ b => b)
          (b64Decode (jsTrim (ofStr "AAAAAAAAAAAAAAAAAAAAAAAAAAAAAAAAAAAAAAAAAAA") ++ [61])))
        ((b64Decode (jsTrim (ofStr "AAAAAAAAAAAAAAAAAAAAAAAAAAAAAAAAAAAAAAAAAAA") ++
          [61])).take 16)
        (b64Decode (ofStr "AAAAAAAAAAAAAAAAAAAAAAAAAAJva2MJCQkJCQkJCQk=")) =
        some (List.replicate 16 0 ++ [0, 0, 0, 2, 111, 107, 99]) ∧
      20 ≤ (List.replicate 16 0 ++ [0, 0, 0, 2, 111, 107, 99]).length ∧
      20 + readU32BE (List.replicate 16 0 ++ [0, 0, 0, 2, 111, 107, 99]) 16 ≤
        (List.replicate 16 0 ++ [0, 0, 0, 2, 111, 107, 99]).length ∧
      decryptWecomEchoStr (fun _ b => b) (ofStr "AAAAAAAAAAAAAAAAAAAAAAAAAAAAAAAAAAAAAAAAAAA")
        (ofStr "c") (ofStr "AAAAAAAAAAAAAAAAAAAAAAAAAAJva2MJCQkJCQkJCQk=") =
        Except.ok (ofStr "ok") :=
  ⟨by decide, by decide, by decide, by decide, by decide, by
    rw [c7_tenant_mismatch (fun _ b => b) (ofStr "AAAAAAAAAAAAAAAAAAAAAAAAAAAAAAAAAAAAAAAAAAA")
      (ofStr "c") (ofStr "AAAAAAAAAAAAAAAAAAAAAAAAAAJva2MJCQkJCQkJCQk=")
      (List.replicate 16 0 ++ [0, 0, 0, 2, 111, 107, 99]) (by decide) (by decide) (by decide)
      (by decide) (by decide)]
    decide⟩

/-- C2: `decryptWecomEchoStr` is a left inverse of the platform's
encryption. For every 32-byte key (with matching 43-character key
material), message and tenant identifier, encrypting the documented layout
`random(16) ++ len(4, big-endian) ++ message-bytes ++ tenant-bytes` with
AES-256-CBC under the key and the IV equal to the key's first 16 bytes and
then decrypting the base64 ciphertext recovers exactly the original
message. The AES-256 block permutation is any keyed cipher/inverse pair
(it is Node's OpenSSL implementation, external to the repository). -/
theorem c2_decrypt_left_inverse
    (blockEnc blockDec : List Nat → List Nat → List Nat) (aesKey : List Nat)
    (hkl : aesKey.length = 32)
    (hinv : ∀ b : List Nat, b.length = 16 → blockDec aesKey (blockEnc aesKey b) = b)
    (hblen : ∀ b : List Nat, b.length = 16 → (blockEnc aesKey b).length = 16)
    (encodingAESKey corpUnits msgUnits rnd echostr : List Nat)
    (hkey43 : (jsTrim encodingAESKey).length = 43)
    (hkeydec : b64Decode (jsTrim encodingAESKey ++ [61]) = aesKey)
    (hrnd : rnd.length = 16)
    (hmlen : (utf8OfUnits msgUnits).length < 4294967296)
    (hecho : b64Decode echostr = aesCbcEncrypt (blockEnc aesKey) (aesKey.take 16)
      (rnd ++ (be32 (utf8OfUnits msgUnits).length ++ (utf8OfUnits msgUnits ++
        utf8OfUnits corpUnits))))
    (hmsg : utf8Decode (utf8OfUnits msgUnits) = msgUnits)
    (hcorp : utf8Decode (utf8OfUnits corpUnits) = corpUnits) :
    decryptWecomEchoStr blockDec encodingAESKey corpUnits echostr = Except.ok msgUnits := by
  have hiv : (aesKey.take 16).length = 16 := by
    rw [List.length_take, hkl]
    omega
  rw [c5_iv_from_key_and_cbc blockDec encodingAESKey corpUnits echostr hkey43
    (by rw [hkeydec]; exact hkl), hkeydec, hecho,
    aesCbc_round_trip (blockEnc aesKey) (blockDec aesKey) hinv hblen _ _ hiv]
  show parsePlain corpUnits
      (rnd ++ (be32 (utf8OfUnits msgUnits).length ++ (utf8OfUnits msgUnits ++
        utf8OfUnits corpUnits))) = Except.ok msgUnits
  set mB := utf8OfUnits msgUnits with hmB
  set cB := utf8OfUnits corpUnits with hcB
  have hdrop16 : (rnd ++ (be32 mB.length ++ (mB ++ cB))).drop 16 =
      be32 mB.length ++ (mB ++ cB) :=
    List.drop_left' hrnd
  have hread : readU32BE (rnd ++ (be32 mB.length ++ (mB ++ cB))) 16 = mB.length := by
    unfold readU32BE
    rw [hdrop16]
    simp only [be32, List.cons_append, List.nil_append, beWord4]
    omega
  have hdrop20 : (rnd ++ (be32 mB.length ++ (mB ++ cB))).drop 20 = mB ++ cB := by
    have h1 : (rnd ++ (be32 mB.length ++ (mB ++ cB))).drop 20 =
        ((rnd ++ (be32 mB.length ++ (mB ++ cB))).drop 16).drop 4 := by
      rw [List.drop_drop]
    rw [h1, hdrop16]
    exact List.drop_left' (by simp [be32])
  have htake : ((rnd ++ (be32 mB.length ++ (mB ++ cB))).drop 20).take mB.length = mB := by
    rw [hdrop20]
    exact List.take_left' rfl
  have hdropEnd : (rnd ++ (be32 mB.length ++ (mB ++ cB))).drop (20 + mB.length) = cB := by
    have h1 : (rnd ++ (be32 mB.length ++ (mB ++ cB))).drop (20 + mB.length) =
        ((rnd ++ (be32 mB.length ++ (mB ++ cB))).drop 20).drop mB.length := by
      rw [List.drop_drop, Nat.add_comm]
    rw [h1, hdrop20]
    exact List.drop_left' rfl
  have hlen : (rnd ++ (be32 mB.length ++ (mB ++ cB))).length = 20 + mB.length + cB.length := by
    simp only [List.length_append, hrnd, be32, List.length_cons, List.length_nil]
    omega
  simp only [parsePlain, hread]
  rw [if_neg (by omega), if_neg (by omega), htake, hdropEnd, hmsg, hcorp]
  rw [if_neg (fun hc => hc.2.2 rfl)]

/-- Witness for C2 at the concrete scenario: identity block cipher,
all-zero 32-byte key from the all-`A` key material, message `"ok"`, tenant
`"c"`, a zero nonce, and the matching base64 ciphertext. -/
theorem c2_decrypt_left_inverse_witness :
    (List.replicate 32 0).length = 32 ∧
      (jsTrim (ofStr "AAAAAAAAAAAAAAAAAAAAAAAAAAAAAAAAAAAAAAAAAAA")).length = 43 ∧
      b64Decode (jsTrim (ofStr "AAAAAAAAAAAAAAAAAAAAAAAAAAAAAAAAAAAAAAAAAAA") ++ [61]) =
        List.replicate 32 0 ∧
      (List.replicate 16 0).length = 16 ∧
      (utf8OfUnits (ofStr "ok")).length < 4294967296 ∧
      b64Decode (ofStr "AAAAAAAAAAAAAAAAAAAAAAAAAAJva2MJCQkJCQkJCQk=") =
        aesCbcEncrypt ((fun (_ b : List Nat) => b) (List.replicate 32 0))
          ((List.replicate 32 0).take 16)
          (List.replicate 16 0 ++ (be32 (utf8OfUnits (ofStr "ok")).length ++
            (utf8OfUnits (ofStr "ok") ++ utf8OfUnits (ofStr "c")))) ∧
      utf8Decode (utf8OfUnits (ofStr "ok")) = ofStr "ok" ∧
      utf8Decode (utf8OfUnits (ofStr "c")) = ofStr "c" ∧
      decryptWecomEchoStr (fun _ b => b) (ofStr "AAAAAAAAAAAAAAAAAAAAAAAAAAAAAAAAAAAAAAAAAAA")
        (ofStr "c") (ofStr "AAAAAAAAAAAAAAAAAAAAAAAAAAJva2MJCQkJCQkJCQk=") =
        Except.ok (ofStr "ok") :=
  ⟨by decide, by decide, by decide, by decide, by decide, by decide, by decide, by decide,
    c2_decrypt_left_inverse (fun _ b => b) (fun _ b => b) (List.replicate 32 0) (by decide)
      (fun _ _ => rfl) (fun _ h => h) (ofStr "AAAAAAAAAAAAAAAAAAAAAAAAAAAAAAAAAAAAAAAAAAA")
      (ofStr "c") (ofStr "ok") (List.replicate 16 0)
      (ofStr "AAAAAAAAAAAAAAAAAAAAAAAAAAJva2MJCQkJCQkJCQk=") (by decide) (by decide) (by decide)
      (by decide) (by decide) (by decide) (by decide)⟩

/-- C8: in the `GET /wecom/kf-callback` route, the decryptor is never
invoked before the verifier has returned `true`: any trace containing the
decryptor call is exactly `[verified true, decrypted]`, and it implies the
signature verified; moreover a 200 response carries exactly the decrypted
plaintext as its body, and a successful decryption after the guards yields
exactly the `⟨200, plaintext⟩` response. -/
theorem c8_verifier_gates_decryptor (blockDec : List Nat → List Nat → List Nat)
    (kfToken encodingAESKey corpId sigQ tsQ nonceQ echoQ : List Nat) :
    (KfEvent.decrypted ∈
        (kfCallbackGet blockDec kfToken encodingAESKey corpId sigQ tsQ nonceQ echoQ).1 →
      verifyWecomSignature kfToken tsQ nonceQ sigQ echoQ = true ∧
        (kfCallbackGet blockDec kfToken encodingAESKey corpId sigQ tsQ nonceQ echoQ).1 =
          [KfEvent.verified true, KfEvent.decrypted]) ∧
      ((kfCallbackGet blockDec kfToken encodingAESKey corpId sigQ tsQ nonceQ echoQ).2.status =
          200 →
        decryptWecomEchoStr blockDec encodingAESKey corpId echoQ =
          Except.ok
            (kfCallbackGet blockDec kfToken encodingAESKey corpId sigQ tsQ nonceQ echoQ).2.body) ∧
      (∀ pt : List Nat, ¬(sigQ = [] ∨ tsQ = [] ∨ nonceQ = [] ∨ echoQ = []) →
        ¬(kfToken = [] ∨ encodingAESKey = [] ∨ corpId = []) →
        verifyWecomSignature kfToken tsQ nonceQ sigQ echoQ = true →
        decryptWecomEchoStr blockDec encodingAESKey corpId echoQ = Except.ok pt →
        (kfCallbackGet blockDec kfToken encodingAESKey corpId sigQ tsQ nonceQ echoQ).2 =
          ⟨200, pt⟩) := by
  by_cases h1 : sigQ = [] ∨ tsQ = [] ∨ nonceQ = [] ∨ echoQ = []
  · refine ⟨?_, ?_, ?_⟩
    · intro hmem
      simp [kfCallbackGet, h1] at hmem
    · intro hstatus
      simp [kfCallbackGet, h1] at hstatus
    · intro pt hg _ _ _
      exact absurd h1 hg
  · by_cases h2 : kfToken = [] ∨ encodingAESKey = [] ∨ corpId = []
    · refine ⟨?_, ?_, ?_⟩
      · intro hmem
        simp [kfCallbackGet, h1, h2] at hmem
      · intro hstatus
        simp [kfCallbackGet, h1, h2] at hstatus
      · intro pt _ hg _ _
        exact absurd h2 hg
    · cases hv : verifyWecomSignature kfToken tsQ nonceQ sigQ echoQ with
      | false =>
        refine ⟨?_, ?_, ?_⟩
        · intro hmem
          simp [kfCallbackGet, h1, h2, hv] at hmem
        · intro hstatus
          simp [kfCallbackGet, h1, h2, hv] at hstatus
        · intro pt _ _ hvt _
          exact absurd hvt (by simp)
      | true =>
        cases hd : decryptWecomEchoStr blockDec encodingAESKey corpId echoQ with
        | ok pt =>
          refine ⟨?_, ?_, ?_⟩
          · intro _
            exact ⟨rfl, by simp [kfCallbackGet, h1, h2, hv, hd]⟩
          · intro _
            simp [kfCallbackGet, h1, h2, hv, hd]
          · intro pt' _ _ _ hd'
            cases hd'
            simp [kfCallbackGet, h1, h2, hv, hd]
        | error e =>
          refine ⟨?_, ?_, ?_⟩
          · intro _
            exact ⟨rfl, by simp [kfCallbackGet, h1, h2, hv, hd]⟩
          · intro hstatus
            simp [kfCallbackGet, h1, h2, hv, hd] at hstatus
          · intro pt' _ _ _ hd'
            cases hd'

set_option maxRecDepth 8000 in
/-- Witness for C8 at the valid concrete scenario: all query parameters and
configuration present, the signature verifying, and the decryption
succeeding with plaintext `"ok"`. -/
theorem c8_verifier_gates_decryptor_witness :
    KfEvent.decrypted ∈
        (kfCallbackGet (fun _ b => b) (ofStr "t")
          (ofStr "AAAAAAAAAAAAAAAAAAAAAAAAAAAAAAAAAAAAAAAAAAA") (ofStr "c")
          (ofStr "d27b93c2f127e7d4f3f783478e6efe9656655a1d") (ofStr "1") (ofStr "n")
          (ofStr "AAAAAAAAAAAAAAAAAAAAAAAAAAJva2MJCQkJCQkJCQk=")).1 ∧
      (verifyWecomSignature (ofStr "t") (ofStr "1") (ofStr "n")
          (ofStr "d27b93c2f127e7d4f3f783478e6efe9656655a1d")
          (ofStr "AAAAAAAAAAAAAAAAAAAAAAAAAAJva2MJCQkJCQkJCQk=") = true ∧
        (kfCallbackGet (fun _ b => b) (ofStr "t")
          (ofStr "AAAAAAAAAAAAAAAAAAAAAAAAAAAAAAAAAAAAAAAAAAA") (ofStr "c")
          (ofStr "d27b93c2f127e7d4f3f783478e6efe9656655a1d") (ofStr "1") (ofStr "n")
          (ofStr "AAAAAAAAAAAAAAAAAAAAAAAAAAJva2MJCQkJCQkJCQk=")).1 =
          [KfEvent.verified true, KfEvent.decrypted]) ∧
      (kfCallbackGet (fun _ b => b) (ofStr "t")
          (ofStr "AAAAAAAAAAAAAAAAAAAAAAAAAAAAAAAAAAAAAAAAAAA") (ofStr "c")
          (ofStr "d27b93c2f127e7d4f3f783478e6efe9656655a1d") (ofStr "1") (ofStr "n")
          (ofStr "AAAAAAAAAAAAAAAAAAAAAAAAAAJva2MJCQkJCQkJCQk=")).2.status = 200 ∧
      decryptWecomEchoStr (fun _ b => b) (ofStr "AAAAAAAAAAAAAAAAAAAAAAAAAAAAAAAAAAAAAAAAAAA")
        (ofStr "c") (ofStr "AAAAAAAAAAAAAAAAAAAAAAAAAAJva2MJCQkJCQkJCQk=") =
        Except.ok
          (kfCallbackGet (fun _ b => b) (ofStr "t")
            (ofStr "AAAAAAAAAAAAAAAAAAAAAAAAAAAAAAAAAAAAAAAAAAA") (ofStr "c")
            (ofStr "d27b93c2f127e7d4f3f783478e6efe9656655a1d") (ofStr "1") (ofStr "n")
            (ofStr "AAAAAAAAAAAAAAAAAAAAAAAAAAJva2MJCQkJCQkJCQk=")).2.body :=
  ⟨by decide,
    (c8_verifier_gates_decryptor (fun _ b => b) (ofStr "t")
      (ofStr "AAAAAAAAAAAAAAAAAAAAAAAAAAAAAAAAAAAAAAAAAAA") (ofStr "c")
      (ofStr "d27b93c2f127e7d4f3f783478e6efe9656655a1d") (ofStr "1") (ofStr "n")
      (ofStr "AAAAAAAAAAAAAAAAAAAAAAAAAAJva2MJCQkJCQkJCQk=")).1 (by decide),
    by decide,
    (c8_verifier_gates_decryptor (fun _ b => b) (ofStr "t")
      (ofStr "AAAAAAAAAAAAAAAAAAAAAAAAAAAAAAAAAAAAAAAAAAA") (ofStr "c")
      (ofStr "d27b93c2f127e7d4f3f783478e6efe9656655a1d") (ofStr "1") (ofStr "n")
      (ofStr "AAAAAAAAAAAAAAAAAAAAAAAAAAJva2MJCQkJCQkJCQk=")).2.1 (by decide)⟩

end WecomProxy
